import Mathlib

/-!
# Verification of `frontend/lib/src/util/UriUtil.ts`

A shallow embedding of the URI utility module of the Streamlit frontend.

The module manipulates WHATWG `URL` objects.  A `URL` is modelled by the
record `URLRec` holding the four components the module reads and writes
(`protocol`, `hostname`, `port`, `pathname`).  Assignments to `URL`
properties in the source go through the WHATWG setters, whose normalizing
behaviour is modelled by `URLRec.setPort` and `setPathnameValue` below.

Strings are manipulated through their underlying character lists so that
every operation is executable and provable.
-/

namespace UriUtil

/-- A parsed WHATWG URL, restricted to the four components that
`UriUtil.ts` reads or writes.  `protocol` carries the trailing colon
(e.g. `"https:"`), `port` is `""` when the URL has no explicit port, and
`pathname` of a parsed special-scheme URL always begins with `"/"` —
exactly as the corresponding `URL` getters report them. -/
structure URLRec where
  protocol : String
  hostname : String
  port : String
  pathname : String
deriving Repr, DecidableEq

/-- Models `s.replace(/\/+$/, "")`: remove every trailing `'/'`.  The regex is
anchored at the end and greedy, so the single (non-global) replacement
removes the whole maximal run of trailing slashes. -/
def dropTrailingSlashes (s : String) : String :=
  ⟨(s.data.reverse.dropWhile (· == '/')).reverse⟩

/-- Models `s.replace(/^\/+/, "")`: remove every leading `'/'`. -/
def dropLeadingSlashes (s : String) : String :=
  ⟨s.data.dropWhile (· == '/')⟩

/-- Models `s.replace(FINAL_SLASH_RE, "").replace(INITIAL_SLASH_RE, "")`, the
normalization applied by `getWindowBaseUriParts` and `makePath`. -/
def stripSlashes (s : String) : String :=
  dropLeadingSlashes (dropTrailingSlashes s)

/-- Translation of `makePath(basePath, subPath)` from the source:
both arguments are stripped of leading/trailing slashes; if the stripped
base is empty the stripped sub-path is returned, otherwise the template
`` `${basePath}/${subPath}` `` is built. -/
def makePath (basePath subPath : String) : String :=
  let basePath := stripSlashes basePath
  let subPath := stripSlashes subPath
  if basePath.length = 0 then subPath
  else basePath ++ "/" ++ subPath

/-- Models `window.location.href.startsWith("https://")` (the source's `isHttps`).
For a parsed location, the serialized `href` begins with `"https://"`
exactly when the location's `protocol` is `"https:"`, so the check is
modelled on the parsed location record. -/
def isHttps (loc : URLRec) : Bool :=
  loc.protocol == "https:"

/-- The scheme's default port, as used by the WHATWG URL port setter's
normalization (special schemes only; the module only ever sees
`http:`/`https:` pages). -/
def defaultPort (protocol : String) : String :=
  if protocol == "https:" || protocol == "wss:" then "443"
  else if protocol == "http:" || protocol == "ws:" then "80"
  else ""

/-- The WHATWG `URL.port` setter: assigning `""` clears the port, and
assigning the scheme's default port also stores the empty port (default
ports are elided by the URL standard).  The model covers the canonical
digit strings the source assigns (`"8501"`, `"443"`, `"80"`); the real
setter would additionally parse/canonicalize arbitrary digit strings. -/
def URLRec.setPort (u : URLRec) (v : String) : URLRec :=
  if v = "" then { u with port := "" }
  else if v = defaultPort u.protocol then { u with port := "" }
  else { u with port := v }

/-- The WHATWG `URL.pathname` setter for a special-scheme URL: the
serialized pathname always begins with a single `"/"`; assigning a string
without a leading slash (including `""`) prepends one.  The model is
faithful for strings without backslashes, percent-escapes or
dot-segments, which is the domain the module feeds it (slash-stripped
pathnames of already-parsed URLs and joins of their segments). -/
def setPathnameValue (s : String) : String :=
  match s.data with
  | '/' :: _ => s
  | _ => "/" ++ s

/-- The fixed development WebSocket port.  The constant lives in
`~lib/baseconsts` (outside this file); its value is pinned by the source
comment in `getWindowBaseUriParts` ("If dev, always connect to 8501"). -/
def WEBSOCKET_PORT_DEV : String := "8501"

/-- Translation of `getWindowBaseUriParts()` from the source.  The ambient inputs —
`window.location` (as a parsed URL) and the `IS_DEV_ENV` flag — are
passed explicitly.  In dev mode the port is forced to
`WEBSOCKET_PORT_DEV`; otherwise, if the URL has no explicit port, the
code assigns `"443"`/`"80"` (through the port setter).  Finally the
pathname is stripped of trailing then leading slashes and stored back
(through the pathname setter). -/
def getWindowBaseUriParts (loc : URLRec) (isDevEnv : Bool) : URLRec :=
  let currentUrl := loc
  let currentUrl :=
    if isDevEnv then currentUrl.setPort WEBSOCKET_PORT_DEV
    else if currentUrl.port = "" then
      currentUrl.setPort (if isHttps loc then "443" else "80")
    else currentUrl
  { currentUrl with
      pathname :=
        setPathnameValue
          (dropLeadingSlashes (dropTrailingSlashes currentUrl.pathname)) }

/-- Models `String.prototype.split("/")` (single-character separator), on the
underlying character list: `"/foo"` ↦ `["", "foo"]`, `""` ↦ `[""]`,
`"a//b"` ↦ `["a", "", "b"]`.  Never returns the empty list. -/
def splitChar : List Char → List (List Char)
  | [] => [[]]
  | c :: rest =>
    match splitChar rest, c == '/' with
    | r, true => [] :: r
    | [], false => [[c]]
    | g :: r, false => (c :: g) :: r

/-- Models `pathname.split("/")` as used by `getPossibleBaseUris`. -/
def splitOnSlash (s : String) : List String :=
  (splitChar s.data).map String.mk

/-- Models `Array.prototype.join("/")` as used by `getPossibleBaseUris`. -/
def joinSlash : List String → String
  | [] => ""
  | [s] => s
  | s :: rest => s ++ "/" ++ joinSlash rest

/-- One iteration of the `while (parts.length > 0)` loop of
`getPossibleBaseUris`: push a copy of the base URL whose pathname is set
(through the pathname setter) to `parts.join("/")`, then pop the last
element of `parts`.  The loop runs exactly `parts.length` times (each
`pop` removes one element), which the first argument counts down. -/
def candidatesFromAux (base : URLRec) : Nat → List String → List URLRec
  | 0, _ => []
  | _ + 1, [] => []
  | n + 1, parts@(_ :: _) =>
    { base with pathname := setPathnameValue (joinSlash parts) } ::
      candidatesFromAux base n parts.dropLast

/-- The whole `while` loop of `getPossibleBaseUris`. -/
def candidatesFrom (base : URLRec) (parts : List String) : List URLRec :=
  candidatesFromAux base parts.length parts

/-- Translation of `getPossibleBaseUris()` from the source: take the window's base URI;
if its pathname is exactly `"/"` return it alone, otherwise split the
pathname on `"/"`, build one candidate per iteration of the pop loop,
and return the first two (`take(possibleBaseUris, 2)`). -/
def getPossibleBaseUris (loc : URLRec) (isDevEnv : Bool) : List URLRec :=
  let baseUriParts := getWindowBaseUriParts loc isDevEnv
  if baseUriParts.pathname = "/" then [baseUriParts]
  else
    List.take 2 (candidatesFrom baseUriParts (splitOnSlash baseUriParts.pathname))

/-- Translation of `buildWsUri({hostname, port, pathname}, path)` from the source.  The
ambient `window.location` consulted by `isHttps` is passed explicitly as
`loc`. -/
def buildWsUri (loc : URLRec) (base : URLRec) (path : String) : String :=
  let protocol := if isHttps loc then "wss" else "ws"
  let fullPath := makePath base.pathname path
  protocol ++ "://" ++ base.hostname ++ ":" ++ base.port ++ "/" ++ fullPath

/-- Translation of `buildHttpUri({hostname, port, pathname}, path)` from the source. -/
def buildHttpUri (loc : URLRec) (base : URLRec) (path : String) : String :=
  let protocol := if isHttps loc then "https" else "http"
  let fullPath := makePath base.pathname path
  protocol ++ "://" ++ base.hostname ++ ":" ++ base.port ++ "/" ++ fullPath

/-- Wildcard matching of a URLPattern component pattern against a fixed
component value: `'*'` is the URLPattern full wildcard (it matches any
sequence of characters, `.*`); every other character matches itself.
Structured with a fuel argument (first parameter) so that it reduces by
structural recursion; `globMatch` supplies adequate fuel. -/
def globMatchAux : Nat → List Char → List Char → Bool
  | 0, _, _ => false
  | _ + 1, [], [] => true
  | _ + 1, [], _ :: _ => false
  | n + 1, '*' :: ps, [] => globMatchAux n ps []
  | n + 1, '*' :: ps, c :: s =>
    globMatchAux n ps (c :: s) || globMatchAux n ('*' :: ps) s
  | n + 1, p :: ps, c :: s => (p == c) && globMatchAux n ps s
  | _ + 1, _ :: _, [] => false

/-- Wildcard matching with adequate fuel (each recursive step of
`globMatchAux` shortens the pattern or the value, so
`p.length + s.length + 1` steps always suffice). -/
def globMatch (p s : List Char) : Bool :=
  globMatchAux (p.length + s.length + 1) p s

/-- A compiled `URLPattern`, restricted to the three components that can
reject an origin.  An origin-form constructor string
(`protocol://hostname[:port]`) leaves `pathname`, `search`, `hash`,
`username` and `password` unspecified, and unspecified components of a
`URLPattern` default to the full wildcard `"*"`, which matches every
value — so those components are omitted from the model.  `protocol`
carries no trailing colon (as `URLPattern.protocol` reports it). -/
structure URLPattern where
  protocol : String
  hostname : String
  port : String
deriving Repr, DecidableEq

/-- Characters my model admits in a protocol pattern. -/
def isProtoPatChar (c : Char) : Bool := c.isLower || c == '*'

/-- Characters my model admits in a hostname pattern. -/
def isHostPatChar (c : Char) : Bool :=
  c.isLower || c.isDigit || c == '.' || c == '-' || c == '*'

/-- Whether a protocol component pattern matches one of the URL
standard's special schemes.  The URLPattern constructor-string parser
uses this to decide whether an absent port should constrain the port to
the scheme's default (empty port) rather than be a wildcard. -/
def protoMatchesSpecialScheme (proto : List Char) : Bool :=
  globMatch proto "http".data || globMatch proto "https".data ||
  globMatch proto "ws".data || globMatch proto "wss".data ||
  globMatch proto "ftp".data || globMatch proto "file".data

/-- Whether a literal port pattern is the default port of a literal
special-scheme protocol pattern; `process a URLPatternInit` replaces
such a port with the empty string. -/
def isDefaultPortFor (proto : String) (digs : List Char) : Bool :=
  (proto == "https" && digs == "443".data) ||
  (proto == "http" && digs == "80".data) ||
  (proto == "wss" && digs == "443".data) ||
  (proto == "ws" && digs == "80".data) ||
  (proto == "ftp" && digs == "21".data)

/-- Models `new URLPattern(allowedOriginPattern)` — the URLPattern constructor
on a pattern string, modelled for origin-form strings
`protocol://hostname[:port]` where the protocol pattern is made of
lowercase letters and `*`, the hostname pattern of lowercase letters,
digits, `.`, `-` and `*`, and the port is `*` or digits (without a
leading zero; the real constructor would canonicalize one away).
Anything else — in particular a string with no `://`, an empty
component, or richer pattern syntax (paths, regexp groups) outside this
model — is a construction failure, `none` (the real constructor throws,
which the source catches).  Two normalizations of the real parser are
kept: a special-scheme pattern without a port gets port `""` (it matches
only the scheme's default port — the very behaviour the source works
around with its port-less pattern), and an explicit default port of a
literal special scheme is stored as `""`. -/
def URLPattern.parse (s : String) : Option URLPattern :=
  let (proto, rest) := s.data.span isProtoPatChar
  if proto = [] then none
  else
    match rest with
    | ':' :: '/' :: '/' :: rest2 =>
      let (host, rest3) := rest2.span isHostPatChar
      if host = [] then none
      else
        match rest3 with
        | [] =>
          some ⟨⟨proto⟩, ⟨host⟩,
            if protoMatchesSpecialScheme proto then "" else "*"⟩
        | ':' :: rest4 =>
          if rest4 = ['*'] then some ⟨⟨proto⟩, ⟨host⟩, "*"⟩
          else if rest4.all Char.isDigit && !rest4.isEmpty
              && !(rest4.head? == some '0') then
            some ⟨⟨proto⟩, ⟨host⟩,
              if isDefaultPortFor ⟨proto⟩ rest4 then "" else ⟨rest4⟩⟩
          else none
        | _ => none
    | _ => none

/-- Characters my model admits in a hostname. -/
def isHostChar (c : Char) : Bool :=
  c.isLower || c.isDigit || c == '.' || c == '-'

/-- Characters my model admits in a path.  `.` is excluded so that the
model need not implement the URL parser's dot-segment removal. -/
def isPathChar (c : Char) : Bool :=
  c.isLower || c.isDigit || c == '/' || c == '-' || c == '_'

/-- The numeric value of a digit string. -/
def digitsToNat (l : List Char) : Nat :=
  l.foldl (fun a c => a * 10 + (c.toNat - 48)) 0

/-- Port canonicalization of the URL parser: an empty port (or none) is
stored as `""`, a port above 65535 is a parse failure, and a port equal
to the scheme's default is elided to `""`; otherwise the port is the
decimal representation of its numeric value. -/
def canonPort (scheme : String) (digs : List Char) : Option String :=
  if digs = [] then some ""
  else
    let n := digitsToNat digs
    if n > 65535 then none
    else if (scheme == "https" && n == 443) || (scheme == "http" && n == 80) then
      some ""
    else some (toString n)

/-- Models `new URL(testOrigin)` — the WHATWG URL constructor, modelled for
absolute `http`/`https` URLs of the shape
`scheme://hostname[:port][/path]` over the character classes above (the
real parser additionally handles other schemes, percent-encoding,
userinfo, IP hosts, queries and fragments, case folding, and
dot-segments; such inputs are outside the model and reported as parse
failure, `none`).  A URL without a path gets pathname `"/"`, and a
scheme-default port is elided to `""`, as in the standard. -/
def parseURL (s : String) : Option URLRec :=
  let (scheme, rest) := s.data.span Char.isLower
  match rest with
  | ':' :: '/' :: '/' :: rest2 =>
    if scheme = "http".data ∨ scheme = "https".data then
      let (host, rest3) := rest2.span isHostChar
      if host = [] then none
      else
        let protoStr : String := (⟨scheme⟩ : String) ++ ":"
        match rest3 with
        | [] => some ⟨protoStr, ⟨host⟩, "", "/"⟩
        | ':' :: rest4 =>
          let (digs, rest5) := rest4.span Char.isDigit
          match rest5 with
          | [] =>
            (canonPort ⟨scheme⟩ digs).map fun p => ⟨protoStr, ⟨host⟩, p, "/"⟩
          | '/' :: _ =>
            if rest5.all isPathChar then
              (canonPort ⟨scheme⟩ digs).map fun p => ⟨protoStr, ⟨host⟩, p, ⟨rest5⟩⟩
            else none
          | _ => none
        | '/' :: _ =>
          if rest3.all isPathChar then some ⟨protoStr, ⟨host⟩, "", ⟨rest3⟩⟩
          else none
        | _ => none
    else none
  | _ => none

/-- The scheme of a parsed URL without the trailing colon, which is what
URLPattern matches a protocol pattern against. -/
def schemeOf (u : URLRec) : String :=
  ⟨u.protocol.data.takeWhile (fun c => !(c == ':'))⟩

/-- Models `pattern.test(url)`: every component pattern must match the URL's
component.  The components omitted from the `URLPattern` model are the
full wildcard and match anything; the remaining three are matched with
`*`-wildcard semantics. -/
def URLPattern.test (p : URLPattern) (u : URLRec) : Bool :=
  globMatch p.protocol.data (schemeOf u).data &&
  globMatch p.hostname.data u.hostname.data &&
  globMatch p.port.data u.port.data

/-- Models `new URLPattern({protocol: p.protocol, hostname: p.hostname})` from
the source: members absent from a `URLPatternInit` default to the full
wildcard `"*"`, so the derived pattern constrains only protocol and
hostname (the port is unconstrained).  Built from the components of an
already-constructed pattern, this constructor cannot fail. -/
def portlessOf (p : URLPattern) : URLPattern :=
  ⟨p.protocol, p.hostname, "*"⟩

/-- Translation of `isValidOrigin(allowedOriginPattern, testOrigin)` from the source.
The `try`/`catch` around the two constructors is modelled by matching on
their `Option` results: any construction failure yields `false`.  (The
embedding is a total Lean function — the conversion of thrown errors
into a `false` return is thereby part of the definition itself.)  If the
test origin's hostname is exactly `"localhost"` and the port-less
pattern matches it, the origin is accepted; otherwise the full pattern
decides. -/
def isValidOrigin (allowedOriginPattern testOrigin : String) : Bool :=
  match URLPattern.parse allowedOriginPattern, parseURL testOrigin with
  | some allowedUrlPattern, some testUrl =>
    if testUrl.hostname == "localhost"
        && (portlessOf allowedUrlPattern).test testUrl then
      true
    else
      allowedUrlPattern.test testUrl
  | _, _ => false

/-! ## Helper lemmas -/

theorem str_ext {a b : String} (h : a.data = b.data) : a = b := by
  cases a with
  | mk d1 =>
    cases b with
    | mk d2 =>
      have h2 : d1 = d2 := h
      rw [h2]

theorem mk_data (s : String) : String.mk s.data = s := rfl

theorem data_append (a b : String) : (a ++ b).data = a.data ++ b.data := rfl

theorem append_empty_eq (a : String) : a ++ "" = a :=
  str_ext (by simp [data_append])

theorem str_length_eq_zero {s : String} : s.length = 0 ↔ s = "" := by
  constructor
  · intro h
    apply str_ext
    have h2 : s.data.length = 0 := h
    cases hl : s.data with
    | nil => rfl
    | cons a t => rw [hl] at h2; simp at h2
  · intro h
    rw [h]
    rfl

theorem dropWhile_head_not {p : Char → Bool} :
    ∀ {l : List Char} {c : Char} {cs : List Char},
      l.dropWhile p = c :: cs → p c = false := by
  intro l
  induction l with
  | nil => intro c cs h; simp at h
  | cons a t ih =>
    intro c cs h
    rw [List.dropWhile_cons] at h
    split at h
    · exact ih h
    · next hpa => cases h; simpa using hpa

theorem dropWhile_slash_head?_ne (l : List Char) :
    (l.dropWhile (· == '/')).head? ≠ some '/' := by
  cases hd : l.dropWhile (· == '/') with
  | nil => simp
  | cons c cs =>
    have hc : (c == '/') = false := dropWhile_head_not (p := (· == '/')) hd
    simp only [List.head?_cons, ne_eq, Option.some.injEq]
    intro h
    subst h
    simp at hc

theorem dropWhile_getLast? {p : Char → Bool} :
    ∀ {l : List Char}, l.dropWhile p ≠ [] →
      (l.dropWhile p).getLast? = l.getLast? := by
  intro l
  induction l with
  | nil => intro h; simp at h
  | cons a t ih =>
    intro h
    by_cases hpa : p a = true
    · simp only [List.dropWhile_cons, hpa, if_true] at h ⊢
      cases t with
      | nil => simp at h
      | cons b t2 => rw [List.getLast?_cons_cons]; exact ih h
    · have hpa2 : p a = false := by simpa using hpa
      simp [List.dropWhile_cons, hpa2]

theorem dropWhile_eq_self_of_not {p : Char → Bool} {l : List Char}
    (h : ∀ c ∈ l, p c = false) : l.dropWhile p = l := by
  cases l with
  | nil => rfl
  | cons a t =>
    have ha : p a = false := h a (by simp)
    simp [List.dropWhile_cons, ha]

theorem stripSlashes_head?_ne (s : String) :
    (stripSlashes s).data.head? ≠ some '/' :=
  dropWhile_slash_head?_ne (dropTrailingSlashes s).data

theorem stripSlashes_getLast?_ne (s : String) :
    (stripSlashes s).data.getLast? ≠ some '/' := by
  show ((dropTrailingSlashes s).data.dropWhile (· == '/')).getLast? ≠ some '/'
  by_cases hne : (dropTrailingSlashes s).data.dropWhile (· == '/') = []
  · rw [hne]; simp
  · rw [dropWhile_getLast? hne]
    show ((s.data.reverse.dropWhile (· == '/')).reverse).getLast? ≠ some '/'
    rw [List.getLast?_reverse]
    exact dropWhile_slash_head?_ne s.data.reverse

theorem stripSlashes_eq_self {s : String} (h : ∀ c ∈ s.data, c ≠ '/') :
    stripSlashes s = s := by
  apply str_ext
  show ((s.data.reverse.dropWhile (· == '/')).reverse).dropWhile (· == '/') = s.data
  have hr : s.data.reverse.dropWhile (· == '/') = s.data.reverse := by
    apply dropWhile_eq_self_of_not
    intro c hc
    rw [List.mem_reverse] at hc
    simpa using h c hc
  rw [hr, List.reverse_reverse]
  apply dropWhile_eq_self_of_not
  intro c hc
  simpa using h c hc

theorem setPathnameValue_strip (s : String) :
    setPathnameValue (stripSlashes s) = "/" ++ stripSlashes s := by
  unfold setPathnameValue
  split
  · next heq =>
    exfalso
    apply stripSlashes_head?_ne s
    rw [heq]
    rfl
  · rfl

theorem update_pathname_self (u : URLRec) :
    { u with pathname := u.pathname } = u := rfl

theorem setPort_pathname (u : URLRec) (v : String) :
    (u.setPort v).pathname = u.pathname := by
  unfold URLRec.setPort
  split
  · rfl
  · split <;> rfl

theorem getWindowBaseUriParts_pathname_eq (loc : URLRec) (isDevEnv : Bool) :
    (getWindowBaseUriParts loc isDevEnv).pathname =
      setPathnameValue (stripSlashes loc.pathname) := by
  cases isDevEnv with
  | true =>
    show setPathnameValue (dropLeadingSlashes (dropTrailingSlashes
      (loc.setPort WEBSOCKET_PORT_DEV).pathname)) = _
    rw [setPort_pathname]
    rfl
  | false =>
    by_cases hp : loc.port = ""
    · show setPathnameValue (dropLeadingSlashes (dropTrailingSlashes
        (if loc.port = "" then loc.setPort (if isHttps loc then "443" else "80")
         else loc).pathname)) = _
      rw [if_pos hp, setPort_pathname]
      rfl
    · show setPathnameValue (dropLeadingSlashes (dropTrailingSlashes
        (if loc.port = "" then loc.setPort (if isHttps loc then "443" else "80")
         else loc).pathname)) = _
      rw [if_neg hp]
      rfl

theorem splitChar_no_slash {l : List Char} (h : ∀ c ∈ l, c ≠ '/') :
    splitChar l = [l] := by
  induction l with
  | nil => rfl
  | cons a t ih =>
    have ha : (a == '/') = false := by simpa using h a (by simp)
    have ht : splitChar t = [t] := ih fun c hc => h c (by simp [hc])
    simp [splitChar, ht, ha]

theorem splitOnSlash_slash_seg (seg : String) (h : ∀ c ∈ seg.data, c ≠ '/') :
    splitOnSlash ("/" ++ seg) = ["", seg] := by
  show (splitChar ('/' :: seg.data)).map String.mk = ["", seg]
  have h1 : splitChar ('/' :: seg.data) = [] :: splitChar seg.data := by
    simp [splitChar]
  rw [h1, splitChar_no_slash h]
  rfl

theorem joinSlash_pair (seg : String) : joinSlash ["", seg] = "/" ++ seg := rfl

theorem setPathnameValue_slash_seg (seg : String) :
    setPathnameValue ("/" ++ seg) = "/" ++ seg := rfl

theorem slash_append_ne_root {seg : String} (h : seg ≠ "") :
    ("/" ++ seg : String) ≠ "/" := by
  intro hc
  apply h
  apply str_ext
  have h2 : ('/' :: seg.data) = ['/'] := congrArg String.data hc
  injection h2

theorem mem_candidatesFromAux {base : URLRec} :
    ∀ (n : Nat) (parts : List String) (u : URLRec),
      u ∈ candidatesFromAux base n parts →
      u.protocol = base.protocol ∧ u.hostname = base.hostname ∧ u.port = base.port := by
  intro n
  induction n with
  | zero => intro parts u hu; simp [candidatesFromAux] at hu
  | succ n ih =>
    intro parts u hu
    cases parts with
    | nil => simp [candidatesFromAux] at hu
    | cons a t =>
      simp only [candidatesFromAux, List.mem_cons] at hu
      rcases hu with hu | hu
      · subst hu; exact ⟨rfl, rfl, rfl⟩
      · exact ih _ _ hu

/-! ## Claim theorems -/

/-- Claim C5, counterexample: the claimed idempotence
`makePath(makePath(a,b), "") = makePath(a,b)` fails at `a = "a"`,
`b = "b"`: the left-hand side is `"a/b/"` (the empty sub-path still gets
a `"/"` prepended by the template) while the right-hand side is
`"a/b"`. -/
theorem makePath_renormalize_cex :
    makePath (makePath "a" "b") "" ≠ makePath "a" "b" := by decide

/-- Claim C5, amended: re-normalizing through `makePath(·, "")` is not
the identity; it yields the slash-stripped previous result followed by a
trailing `"/"` (or `""` when the stripped result is empty).  In
particular `makePath (makePath a b) ""` differs from `makePath a b` by a
trailing slash whenever the latter is nonempty and does not already end
in `"/"`. -/
theorem makePath_renormalize (a b : String) :
    makePath (makePath a b) "" =
      if stripSlashes (makePath a b) = "" then ""
      else stripSlashes (makePath a b) ++ "/" := by
  have key : ∀ x : String, makePath x "" =
      if stripSlashes x = "" then "" else stripSlashes x ++ "/" := by
    intro x
    have hsub : stripSlashes "" = "" := rfl
    by_cases hx : stripSlashes x = ""
    · rw [if_pos hx]
      show (if (stripSlashes x).length = 0 then stripSlashes ""
        else stripSlashes x ++ "/" ++ stripSlashes "") = ""
      rw [if_pos (by rw [hx]; rfl)]
      exact hsub
    · rw [if_neg hx]
      show (if (stripSlashes x).length = 0 then stripSlashes ""
        else stripSlashes x ++ "/" ++ stripSlashes "") = stripSlashes x ++ "/"
      rw [if_neg (fun h => hx (str_length_eq_zero.mp h))]
      rw [hsub, append_empty_eq]
  exact key (makePath a b)

/-- Claim C8, counterexample: the empty string contains no slash, yet
`makePath("", "x")` returns `"x"`, not `"" ++ "/" ++ "x" = "/x"` — the
claimed template equality fails when the base is empty. -/
theorem makePath_no_slash_cex : makePath "" "x" ≠ "" ++ "/" ++ "x" := by
  decide

/-- Claim C8, amended: for all slash-free strings `a` and `b` with `a`
nonempty, `makePath a b` is the template `"{a}/{b}"`. -/
theorem makePath_no_slash (a b : String) (ha : ∀ c ∈ a.data, c ≠ '/')
    (hb : ∀ c ∈ b.data, c ≠ '/') (hne : a ≠ "") :
    makePath a b = a ++ "/" ++ b := by
  have sa := stripSlashes_eq_self ha
  have sb := stripSlashes_eq_self hb
  show (if (stripSlashes a).length = 0 then stripSlashes b
    else stripSlashes a ++ "/" ++ stripSlashes b) = a ++ "/" ++ b
  rw [sa, sb]
  rw [if_neg (fun h => hne (str_length_eq_zero.mp h))]

/-- Witness for `makePath_no_slash` at `a = "a"`, `b = "b"`. -/
theorem makePath_no_slash_wit :
    (∀ c ∈ ("a" : String).data, c ≠ '/') ∧ (∀ c ∈ ("b" : String).data, c ≠ '/') ∧
    ("a" : String) ≠ "" ∧ makePath "a" "b" = "a" ++ "/" ++ "b" :=
  ⟨by decide, by decide, by decide,
    makePath_no_slash "a" "b" (by decide) (by decide) (by decide)⟩

/-- Claim C4, counterexample: at page URL `https://example.com/foo` the
pathname of the returned base URI is `"/foo"`, whose first character is
a slash — the claimed "no leading slash" invariant fails (the WHATWG
pathname setter re-adds the leading slash the code just stripped). -/
theorem getWindowBaseUriParts_leading_slash_cex :
    ((getWindowBaseUriParts ⟨"https:", "example.com", "", "/foo"⟩ false).pathname).data.head?
      = some '/' := by decide

/-- Claim C4, amended: for every page URL, the pathname of the base URI
returned by `getWindowBaseUriParts` is `"/"` followed by the
slash-stripped original pathname; the stripped part itself has no
leading and no trailing slash (so the stored pathname has exactly one
leading slash, re-added by the URL pathname setter, and no trailing
slash except when it is the root `"/"` itself). -/
theorem getWindowBaseUriParts_pathname_norm (loc : URLRec) (isDevEnv : Bool) :
    (getWindowBaseUriParts loc isDevEnv).pathname = "/" ++ stripSlashes loc.pathname ∧
    (stripSlashes loc.pathname).data.head? ≠ some '/' ∧
    (stripSlashes loc.pathname).data.getLast? ≠ some '/' :=
  ⟨by rw [getWindowBaseUriParts_pathname_eq, setPathnameValue_strip],
   stripSlashes_head?_ne _, stripSlashes_getLast?_ne _⟩

/-- Claim C6: in production mode, for a page URL with no explicit port,
the code assigns `"443"` (HTTPS) or `"80"` (HTTP) to `currentUrl.port`,
but the WHATWG port setter elides a scheme-default port, so the returned
base URI's port is the empty string, not an explicit `"443"`/`"80"`. -/
theorem getWindowBaseUriParts_port_elided :
    (getWindowBaseUriParts ⟨"https:", "example.com", "", "/"⟩ false).port = "" ∧
    (getWindowBaseUriParts ⟨"http:", "example.com", "", "/"⟩ false).port = "" := by
  decide

/-- Claim C3, counterexample: at page URL `https://example.com/foo`
(a one-segment path) `getPossibleBaseUris` returns two candidates, not
one: the stored pathname `"/foo"` splits into `["", "foo"]`, so the pop
loop runs twice, also producing a root (`"/"`) candidate. -/
theorem getPossibleBaseUris_single_segment_cex :
    (getPossibleBaseUris ⟨"https:", "example.com", "", "/foo"⟩ false).length ≠ 1 := by
  decide

/-- Claim C3, amended: for every page URL whose normalized base pathname
is a single segment `"/" ++ seg` (with `seg` nonempty and slash-free),
`getPossibleBaseUris` returns exactly two candidates: the base URI
itself, then the same URI at the root path `"/"`. -/
theorem getPossibleBaseUris_single_segment (loc : URLRec) (isDevEnv : Bool)
    (seg : String) (hseg : seg ≠ "") (hchar : ∀ c ∈ seg.data, c ≠ '/')
    (hpath : (getWindowBaseUriParts loc isDevEnv).pathname = "/" ++ seg) :
    getPossibleBaseUris loc isDevEnv =
      [getWindowBaseUriParts loc isDevEnv,
       { getWindowBaseUriParts loc isDevEnv with pathname := "/" }] := by
  simp only [getPossibleBaseUris]
  rw [hpath, if_neg (slash_append_ne_root hseg), splitOnSlash_slash_seg seg hchar]
  have hcand : List.take 2 (candidatesFrom (getWindowBaseUriParts loc isDevEnv) ["", seg]) =
      [{ getWindowBaseUriParts loc isDevEnv with
          pathname := setPathnameValue (joinSlash ["", seg]) },
       { getWindowBaseUriParts loc isDevEnv with pathname := "/" }] := rfl
  rw [hcand, joinSlash_pair, setPathnameValue_slash_seg, ← hpath, update_pathname_self]

/-- Witness for `getPossibleBaseUris_single_segment` at page URL
`https://example.com/foo`. -/
theorem getPossibleBaseUris_single_segment_wit :
    ("foo" : String) ≠ "" ∧ (∀ c ∈ ("foo" : String).data, c ≠ '/') ∧
    (getWindowBaseUriParts ⟨"https:", "example.com", "", "/foo"⟩ false).pathname
      = "/" ++ "foo" ∧
    getPossibleBaseUris ⟨"https:", "example.com", "", "/foo"⟩ false =
      [getWindowBaseUriParts ⟨"https:", "example.com", "", "/foo"⟩ false,
       { getWindowBaseUriParts ⟨"https:", "example.com", "", "/foo"⟩ false with
          pathname := "/" }] :=
  ⟨by decide, by decide, by decide,
    getPossibleBaseUris_single_segment _ false "foo" (by decide) (by decide) (by decide)⟩

/-- Claim C7, counterexample: at page URL `https://example.com/foo/bar`
the two candidates' pathnames are `"/foo/bar"` and `"/foo"` — with the
leading slash the URL pathname setter re-adds — not the claimed
`"foo/bar"` and `"foo"`. -/
theorem getPossibleBaseUris_two_segments_cex :
    (getPossibleBaseUris ⟨"https:", "example.com", "", "/foo/bar"⟩ false).map
        URLRec.pathname ≠ ["foo/bar", "foo"] := by
  decide

/-- Claim C7, amended: for every page URL whose normalized base pathname
is `"/foo/bar"`, `getPossibleBaseUris` returns exactly two candidates in
order: first the base URI (pathname `"/foo/bar"`), second the same URI
with pathname `"/foo"`. -/
theorem getPossibleBaseUris_two_segments (loc : URLRec) (isDevEnv : Bool)
    (hpath : (getWindowBaseUriParts loc isDevEnv).pathname = "/foo/bar") :
    getPossibleBaseUris loc isDevEnv =
      [getWindowBaseUriParts loc isDevEnv,
       { getWindowBaseUriParts loc isDevEnv with pathname := "/foo" }] := by
  simp only [getPossibleBaseUris]
  rw [hpath, if_neg (by decide : ¬(("/foo/bar" : String) = "/"))]
  have hsplit : splitOnSlash "/foo/bar" = ["", "foo", "bar"] := rfl
  rw [hsplit]
  have hcand : List.take 2
      (candidatesFrom (getWindowBaseUriParts loc isDevEnv) ["", "foo", "bar"]) =
      [{ getWindowBaseUriParts loc isDevEnv with pathname := "/foo/bar" },
       { getWindowBaseUriParts loc isDevEnv with pathname := "/foo" }] := rfl
  rw [hcand, ← hpath, update_pathname_self]

/-- Witness for `getPossibleBaseUris_two_segments` at page URL
`https://example.com/foo/bar`. -/
theorem getPossibleBaseUris_two_segments_wit :
    (getWindowBaseUriParts ⟨"https:", "example.com", "", "/foo/bar"⟩ false).pathname
      = "/foo/bar" ∧
    getPossibleBaseUris ⟨"https:", "example.com", "", "/foo/bar"⟩ false =
      [getWindowBaseUriParts ⟨"https:", "example.com", "", "/foo/bar"⟩ false,
       { getWindowBaseUriParts ⟨"https:", "example.com", "", "/foo/bar"⟩ false with
          pathname := "/foo" }] :=
  ⟨by decide, getPossibleBaseUris_two_segments _ false (by decide)⟩

/-- Claim C10: every candidate returned by `getPossibleBaseUris` agrees
with the base URI returned by `getWindowBaseUriParts` on protocol,
hostname and port — each candidate is built as a copy of the base URI
with only its pathname reassigned. -/
theorem getPossibleBaseUris_same_authority (loc : URLRec) (isDevEnv : Bool)
    (u : URLRec) (hu : u ∈ getPossibleBaseUris loc isDevEnv) :
    u.protocol = (getWindowBaseUriParts loc isDevEnv).protocol ∧
    u.hostname = (getWindowBaseUriParts loc isDevEnv).hostname ∧
    u.port = (getWindowBaseUriParts loc isDevEnv).port := by
  simp only [getPossibleBaseUris] at hu
  split at hu
  · rw [List.mem_singleton] at hu
    subst hu
    exact ⟨rfl, rfl, rfl⟩
  · exact mem_candidatesFromAux _ _ _ (List.take_subset _ _ hu)

/-- Witness for `getPossibleBaseUris_same_authority`: the first
candidate at page URL `https://example.com/foo`. -/
theorem getPossibleBaseUris_same_authority_wit :
    (getWindowBaseUriParts ⟨"https:", "example.com", "", "/foo"⟩ false) ∈
        getPossibleBaseUris ⟨"https:", "example.com", "", "/foo"⟩ false ∧
    ((getWindowBaseUriParts ⟨"https:", "example.com", "", "/foo"⟩ false).protocol
        = (getWindowBaseUriParts ⟨"https:", "example.com", "", "/foo"⟩ false).protocol ∧
      (getWindowBaseUriParts ⟨"https:", "example.com", "", "/foo"⟩ false).hostname
        = (getWindowBaseUriParts ⟨"https:", "example.com", "", "/foo"⟩ false).hostname ∧
      (getWindowBaseUriParts ⟨"https:", "example.com", "", "/foo"⟩ false).port
        = (getWindowBaseUriParts ⟨"https:", "example.com", "", "/foo"⟩ false).port) :=
  ⟨by decide, getPossibleBaseUris_same_authority _ false _ (by decide)⟩

/-- Claim C9: `buildWsUri` produces
`"{scheme}://{hostname}:{port}/{joinedPath}"` with scheme `wss`/`ws`
according to whether the page was loaded over HTTPS, the joined path
being `makePath base.pathname path`; `buildHttpUri` is identical with
schemes `https`/`http`. -/
theorem buildUri_format (loc base : URLRec) (path : String) :
    buildWsUri loc base path =
      (if isHttps loc then "wss" else "ws") ++ "://" ++ base.hostname ++ ":"
        ++ base.port ++ "/" ++ makePath base.pathname path ∧
    buildHttpUri loc base path =
      (if isHttps loc then "https" else "http") ++ "://" ++ base.hostname ++ ":"
        ++ base.port ++ "/" ++ makePath base.pathname path :=
  ⟨rfl, rfl⟩

/-- Claim C1: whenever the allowed-origin pattern parses, the test
origin parses as a URL whose hostname is exactly `"localhost"`, and the
port-less variant of the pattern (protocol and hostname only, port
unconstrained) matches the test URL, `isValidOrigin` returns `true` —
whatever the test URL's port is. -/
theorem isValidOrigin_localhost (P T : String) (pat : URLPattern) (u : URLRec)
    (hP : URLPattern.parse P = some pat) (hT : parseURL T = some u)
    (hhost : u.hostname = "localhost")
    (hmatch : (portlessOf pat).test u = true) :
    isValidOrigin P T = true := by
  unfold isValidOrigin
  rw [hP, hT]
  simp [hhost, hmatch]

/-- Witness for `isValidOrigin_localhost`:
`isValidOrigin("https://localhost", "https://localhost:9999")` is `true`
even though the pattern's (implicit) port is the default 443 and the
test origin's port is 9999. -/
theorem isValidOrigin_localhost_wit :
    URLPattern.parse "https://localhost" = some ⟨"https", "localhost", ""⟩ ∧
    parseURL "https://localhost:9999" = some ⟨"https:", "localhost", "9999", "/"⟩ ∧
    (⟨"https:", "localhost", "9999", "/"⟩ : URLRec).hostname = "localhost" ∧
    (portlessOf ⟨"https", "localhost", ""⟩).test ⟨"https:", "localhost", "9999", "/"⟩
      = true ∧
    isValidOrigin "https://localhost" "https://localhost:9999" = true :=
  ⟨by decide, by decide, by decide, by decide,
    isValidOrigin_localhost "https://localhost" "https://localhost:9999"
      ⟨"https", "localhost", ""⟩ ⟨"https:", "localhost", "9999", "/"⟩
      (by decide) (by decide) (by decide) (by decide)⟩

/-- Claim C2: `isValidOrigin` is a total function (the embedding returns
a `Bool` for every pair of strings — thrown parse errors are caught in
the source and modelled as `Option` failures here), and whenever the
pattern fails to construct or the test origin fails to parse as a URL,
it returns `false`. -/
theorem isValidOrigin_parse_failure (P T : String)
    (h : URLPattern.parse P = none ∨ parseURL T = none) :
    isValidOrigin P T = false := by
  unfold isValidOrigin
  rcases h with h | h
  · rcases hq : parseURL T with _ | q <;> rw [h]
  · rcases hp : URLPattern.parse P with _ | p <;> rw [h]

/-- Witness for `isValidOrigin_parse_failure`: the pattern
`"not a valid pattern"` fails to construct, so validation of
`"https://example.com"` against it is `false`. -/
theorem isValidOrigin_parse_failure_wit :
    (URLPattern.parse "not a valid pattern" = none ∨
      parseURL "https://example.com" = none) ∧
    isValidOrigin "not a valid pattern" "https://example.com" = false :=
  ⟨Or.inl (by decide),
    isValidOrigin_parse_failure _ _ (Or.inl (by decide))⟩

end UriUtil

